import Mathlib

/-!
Verification development for the uLearnApi repository: a shallow embedding of
the course / section / module controllers and the auth controller, over an
explicit document store.  Mongo documents become Lean structures; generated
`_id`s are modelled by a `nextId` counter on the store; mongoose queries
(`findOne`, `findOneAndUpdate`, `findOneAndDelete`, `deleteMany`) become
list operations that act on the first matching element.  Every controller is
a pure function from its request data and the store to an HTTP-style
response paired with the (possibly updated) store; read-only handlers return
just the response.  External primitives (bcrypt compare, JWT issuing) are
taken as opaque function parameters, as the spec treats them.
-/

namespace ULearn

inductive Role where
  | student
  | instructor
  | admin
deriving DecidableEq, Repr

inductive Level where
  | beginner
  | intermediate
  | advanced
deriving DecidableEq, Repr

inductive CStatus where
  | draft
  | published
  | unpublished
deriving DecidableEq, Repr

inductive MType where
  | video
  | video_slide
  | article
  | quiz
  | assignment
deriving DecidableEq, Repr

/-- User document (models/User.ts).  `password` stores the bcrypt hash; it is
an `Option` so that a query projection excluding it — `select('-password')`,
or the schema default `select: false` — can be modelled as `none`. -/
structure User where
  id : Nat
  email : String
  password : Option String
  name : String
  role : Role
  bio : Option String := none
  profilePicture : Option String := none
deriving DecidableEq, Repr

/-- Course document (models/Course.ts). -/
structure Course where
  id : Nat
  title : String
  description : String
  category : String
  level : Level := .beginner
  price : Nat := 0
  instructorId : Nat
  status : CStatus := .draft
  duration : Option Nat := none
  rating : Nat := 0
  enrollmentCount : Nat := 0
deriving DecidableEq, Repr

/-- Section document (models/Section.ts).  `order` is a number with schema
validator `min: 1`; we model it as `Nat`, `0` standing for any value the
validator rejects. -/
structure Section where
  id : Nat
  courseId : Nat
  title : String
  description : Option String := none
  learningObjective : Option String := none
  order : Nat
deriving DecidableEq, Repr

/-- Module document (models/Module.ts). -/
structure Module where
  id : Nat
  sectionId : Nat
  title : String
  type : MType
  content : String
  order : Nat
  duration : Option Nat := none
deriving DecidableEq, Repr

/-- The document store: one collection per model, plus the id generator. -/
structure Store where
  users : List User := []
  courses : List Course := []
  sections : List Section := []
  modules : List Module := []
  nextId : Nat := 0
deriving DecidableEq, Repr

/-- The authenticated actor attached to the request by the authenticate
middleware (`req.user`). -/
structure AuthUser where
  id : Nat
  role : Role
deriving DecidableEq, Repr

/-- An HTTP-style controller response: status code, message, and data on the
success path (the uniform `{success, message, data?}` envelope). -/
inductive Resp (α : Type) where
  | ok (status : Nat) (message : String) (data : α)
  | err (status : Nat) (message : String)
deriving DecidableEq, Repr

def Resp.statusOf : Resp α → Nat
  | .ok st _ _ => st
  | .err st _ => st

/-- Model of `findOneAndUpdate(filter, f, {new: true})` on a list: update the first
element matching `p` by `f`, returning the updated document and the new
list. -/
def findAndUpdateFirst (p : α → Bool) (f : α → α) : List α → Option α × List α
  | [] => (none, [])
  | x :: xs =>
    if p x then (some (f x), f x :: xs)
    else
      let r := findAndUpdateFirst p f xs
      (r.1, x :: r.2)

/-- Model of `.sort({order: 1})`: insertion sort ascending by a numeric key. -/
def insertByKey (key : α → Nat) (x : α) : List α → List α
  | [] => [x]
  | y :: ys => if key x ≤ key y then x :: y :: ys else y :: insertByKey key x ys

def sortByKey (key : α → Nat) : List α → List α
  | [] => []
  | x :: xs => insertByKey key x (sortByKey key xs)

end ULearn

namespace ULearn

/-! ## Section controller (controllers/sectionController.ts) -/

/-- Request body of `POST /:courseId/sections`, after the zod
`createSectionSchema` (title required, order a required integer ≥ 1). -/
structure SectionBody where
  title : String
  description : Option String := none
  learningObjective : Option String := none
  order : Nat
deriving DecidableEq, Repr

/-- Handler `createSection`: instructor check, course-ownership check, duplicate
`(courseId, order)` check (rejected with status 400), then save.  The
mongoose validator `order: {min: 1}` makes `save` fail (caught as a 500)
when the order is below 1. -/
def createSection (actor : AuthUser) (courseId : Nat) (body : SectionBody)
    (s : Store) : Resp Section × Store :=
  if actor.role ≠ .instructor then
    (.err 403 "Only instructors can create course sections", s)
  else
    match s.courses.find? (fun c => c.id == courseId && c.instructorId == actor.id) with
    | none => (.err 404 "Course not found or you do not have permission to modify it", s)
    | some _ =>
      match s.sections.find? (fun x => x.courseId == courseId && x.order == body.order) with
      | some _ =>
        (.err 400 ("A section with order " ++ toString body.order ++
          " already exists. Please use a different order."), s)
      | none =>
        if body.order < 1 then (.err 500 "Failed to create section", s)
        else
          let sec : Section :=
            { id := s.nextId, courseId := courseId, title := body.title,
              description := body.description,
              learningObjective := body.learningObjective, order := body.order }
          (.ok 201 "Section created successfully" sec,
            { s with sections := s.sections ++ [sec], nextId := s.nextId + 1 })

/-- Handler `getSections`: course existence check, then the course's sections sorted
ascending by order. -/
def getSections (courseId : Nat) (s : Store) : Resp (List Section) :=
  match s.courses.find? (fun c => c.id == courseId) with
  | none => .err 404 "Course not found"
  | some _ =>
    .ok 200 "Sections retrieved successfully"
      (sortByKey Section.order (s.sections.filter (fun x => x.courseId == courseId)))

/-- Handler `getSection`: one section by id scoped to the stated course
(`findOne({_id: sectionId, courseId})`). -/
def getSection (courseId sectionId : Nat) (s : Store) : Resp Section :=
  match s.sections.find? (fun x => x.id == sectionId && x.courseId == courseId) with
  | none => .err 404 "Section not found"
  | some sec => .ok 200 "Section retrieved successfully" sec

/-- Request body of `PUT .../sections/:sectionId` after the zod
`updateSectionSchema`: every field optional, unknown keys (such as
`courseId`) stripped, order an integer ≥ 1 when present. -/
structure SectionPatch where
  title : Option String := none
  description : Option String := none
  learningObjective : Option String := none
  order : Option Nat := none
deriving DecidableEq, Repr

/-- JavaScript truthiness of `updates.order`: present and non-zero. -/
def truthyNat : Option Nat → Bool
  | some n => n != 0
  | none => false

def applySectionPatch (p : SectionPatch) (x : Section) : Section :=
  { x with
    title := p.title.getD x.title,
    description := match p.description with | some d => some d | none => x.description,
    learningObjective :=
      match p.learningObjective with | some d => some d | none => x.learningObjective,
    order := p.order.getD x.order }

/-- Handler `updateSection`: instructor and ownership checks; when the patch has a
truthy `order`, a duplicate check excluding the record's own id (status 400
on conflict); then `findOneAndUpdate({_id, courseId}, updates,
{runValidators})` — a patch order below 1 fails validation (caught as 500,
nothing written). -/
def updateSection (actor : AuthUser) (courseId sectionId : Nat)
    (p : SectionPatch) (s : Store) : Resp Section × Store :=
  if actor.role ≠ .instructor then
    (.err 403 "Only instructors can update course sections", s)
  else
    match s.courses.find? (fun c => c.id == courseId && c.instructorId == actor.id) with
    | none => (.err 404 "Course not found or you do not have permission to modify it", s)
    | some _ =>
      match
        (if truthyNat p.order then
          s.sections.find? (fun x =>
            x.courseId == courseId && some x.order == p.order && x.id != sectionId)
        else none) with
      | some _ =>
        (.err 400 ("A section with order " ++ toString (p.order.getD 0) ++
          " already exists. Please use a different order."), s)
      | none =>
        if p.order.getD 1 < 1 then (.err 500 "Failed to update section", s)
        else
          match findAndUpdateFirst
              (fun x => x.id == sectionId && x.courseId == courseId)
              (applySectionPatch p) s.sections with
          | (none, _) => (.err 404 "Section not found", s)
          | (some sec, secs) =>
            (.ok 200 "Section updated successfully" sec, { s with sections := secs })

/-- Handler `deleteSection`: instructor and ownership checks, then a transaction:
`findOneAndDelete({_id, sectionId, courseId})` plus
`deleteMany({sectionId})` on modules, committed together (aborted, leaving
the store untouched, when the section is not found). -/
def deleteSection (actor : AuthUser) (courseId sectionId : Nat)
    (s : Store) : Resp Unit × Store :=
  if actor.role ≠ .instructor then
    (.err 403 "Only instructors can delete course sections", s)
  else
    match s.courses.find? (fun c => c.id == courseId && c.instructorId == actor.id) with
    | none => (.err 404 "Course not found or you do not have permission to modify it", s)
    | some _ =>
      match s.sections.find? (fun x => x.id == sectionId && x.courseId == courseId) with
      | none => (.err 404 "Section not found", s)
      | some _ =>
        (.ok 200 "Section and its modules deleted successfully" (),
          { s with
            sections := s.sections.eraseP (fun x => x.id == sectionId && x.courseId == courseId),
            modules := s.modules.filter (fun m => m.sectionId != sectionId) })

/-- Outcome of one `findOneAndUpdate` issued by a reorder call: document
updated, filter matched nothing (`null`), or validator rejection (the
promise rejects). -/
inductive ItemRes (α : Type) where
  | updated (doc : α)
  | notFound
  | invalid
deriving DecidableEq, Repr

def ItemRes.isNotFound : ItemRes α → Bool
  | .notFound => true
  | _ => false

def ItemRes.isInvalid : ItemRes α → Bool
  | .invalid => true
  | _ => false

def ItemRes.doc? : ItemRes α → Option α
  | .updated d => some d
  | _ => none

/-- One `{sectionId, order}` update of `reorderSections`:
`findOneAndUpdate({_id: sectionId, courseId}, {order}, {runValidators})`. -/
def reorderSectionStep (courseId : Nat) (item : Nat × Nat)
    (secs : List Section) : ItemRes Section × List Section :=
  if item.2 < 1 then (.invalid, secs)
  else
    match findAndUpdateFirst
        (fun x => x.id == item.1 && x.courseId == courseId)
        (fun x => { x with order := item.2 }) secs with
    | (none, _) => (.notFound, secs)
    | (some d, secs') => (.updated d, secs')

/-- All the updates of a reorder call.  `Promise.all` starts every update;
each lands independently, so sequential application of every item is the
observable effect. -/
def reorderSectionsAll (courseId : Nat) (items : List (Nat × Nat))
    (secs : List Section) : List (ItemRes Section) × List Section :=
  match items with
  | [] => ([], secs)
  | item :: rest =>
    let r := reorderSectionStep courseId item secs
    let rr := reorderSectionsAll courseId rest r.2
    (r.1 :: rr.1, rr.2)

/-- Handler `reorderSections`: instructor and ownership checks, non-empty input
check, then every update is issued; only afterwards the results are scanned:
a rejected promise gives the catch-all 500, a `null` result gives 404 — in
both cases the updates that matched have already been written. -/
def reorderSections (actor : AuthUser) (courseId : Nat)
    (items : List (Nat × Nat)) (s : Store) : Resp (List Section) × Store :=
  if actor.role ≠ .instructor then
    (.err 403 "Only instructors can reorder course sections", s)
  else
    match s.courses.find? (fun c => c.id == courseId && c.instructorId == actor.id) with
    | none => (.err 404 "Course not found or you do not have permission to modify it", s)
    | some _ =>
      if items.isEmpty then (.err 400 "Invalid section orders provided", s)
      else
        let r := reorderSectionsAll courseId items s.sections
        let s' := { s with sections := r.2 }
        if r.1.any ItemRes.isInvalid then (.err 500 "Failed to reorder sections", s')
        else if r.1.any ItemRes.isNotFound then
          (.err 404 "One or more sections not found", s')
        else
          (.ok 200 "Sections reordered successfully" (r.1.filterMap ItemRes.doc?), s')

/-! ## Module controller (controllers/moduleController.ts) -/

/-- Request body of `POST /sections/:sectionId/modules`, after the zod
`createModuleSchema`. -/
structure ModuleBody where
  title : String
  type : MType
  content : String
  order : Nat
  duration : Option Nat := none
deriving DecidableEq, Repr

/-- Handler `createModule`: instructor check, section existence, ownership of the
ancestor course, duplicate `(sectionId, order)` check (status 400), then
save (validator `order: {min: 1}`). -/
def createModule (actor : AuthUser) (sectionId : Nat) (body : ModuleBody)
    (s : Store) : Resp Module × Store :=
  if actor.role ≠ .instructor then
    (.err 403 "Only instructors can create modules", s)
  else
    match s.sections.find? (fun x => x.id == sectionId) with
    | none => (.err 404 "Section not found", s)
    | some sec =>
      match s.courses.find? (fun c => c.id == sec.courseId && c.instructorId == actor.id) with
      | none => (.err 403 "You do not have permission to modify this course", s)
      | some _ =>
        match s.modules.find? (fun m => m.sectionId == sectionId && m.order == body.order) with
        | some _ =>
          (.err 400 ("A module with order " ++ toString body.order ++
            " already exists. Please use a different order."), s)
        | none =>
          if body.order < 1 then (.err 500 "Failed to create module", s)
          else
            let md : Module :=
              { id := s.nextId, sectionId := sectionId, title := body.title,
                type := body.type, content := body.content, order := body.order,
                duration := body.duration }
            (.ok 201 "Module created successfully" md,
              { s with modules := s.modules ++ [md], nextId := s.nextId + 1 })

/-- Handler `getModules`: section existence check, then the section's modules sorted
ascending by order. -/
def getModules (sectionId : Nat) (s : Store) : Resp (List Module) :=
  match s.sections.find? (fun x => x.id == sectionId) with
  | none => .err 404 "Section not found"
  | some _ =>
    .ok 200 "Modules retrieved successfully"
      (sortByKey Module.order (s.modules.filter (fun m => m.sectionId == sectionId)))

/-- Handler `getModule`: one module by id scoped to the stated section
(`findOne({_id: moduleId, sectionId})`). -/
def getModule (sectionId moduleId : Nat) (s : Store) : Resp Module :=
  match s.modules.find? (fun m => m.id == moduleId && m.sectionId == sectionId) with
  | none => .err 404 "Module not found"
  | some md => .ok 200 "Module retrieved successfully" md

/-- Request body of `PUT .../modules/:moduleId` after the zod
`updateModuleSchema`: all fields optional, unknown keys stripped. -/
structure ModulePatch where
  title : Option String := none
  type : Option MType := none
  content : Option String := none
  order : Option Nat := none
  duration : Option Nat := none
deriving DecidableEq, Repr

def applyModulePatch (p : ModulePatch) (m : Module) : Module :=
  { m with
    title := p.title.getD m.title,
    type := p.type.getD m.type,
    content := p.content.getD m.content,
    order := p.order.getD m.order,
    duration := match p.duration with | some d => some d | none => m.duration }

/-- Handler `updateModule`: instructor, section existence and ownership checks;
truthy-`order` duplicate check excluding the record's own id (status 400 on
conflict); then `findOneAndUpdate({_id, sectionId}, updates,
{runValidators})`. -/
def updateModule (actor : AuthUser) (sectionId moduleId : Nat)
    (p : ModulePatch) (s : Store) : Resp Module × Store :=
  if actor.role ≠ .instructor then
    (.err 403 "Only instructors can update modules", s)
  else
    match s.sections.find? (fun x => x.id == sectionId) with
    | none => (.err 404 "Section not found", s)
    | some sec =>
      match s.courses.find? (fun c => c.id == sec.courseId && c.instructorId == actor.id) with
      | none => (.err 403 "You do not have permission to modify this course", s)
      | some _ =>
        match
          (if truthyNat p.order then
            s.modules.find? (fun m =>
              m.sectionId == sectionId && some m.order == p.order && m.id != moduleId)
          else none) with
        | some _ =>
          (.err 400 ("A module with order " ++ toString (p.order.getD 0) ++
            " already exists. Please use a different order."), s)
        | none =>
          if p.order.getD 1 < 1 then (.err 500 "Failed to update module", s)
          else
            match findAndUpdateFirst
                (fun m => m.id == moduleId && m.sectionId == sectionId)
                (applyModulePatch p) s.modules with
            | (none, _) => (.err 404 "Module not found", s)
            | (some md, mods) =>
              (.ok 200 "Module updated successfully" md, { s with modules := mods })

/-- One `{moduleId, order}` update of `reorderModules`. -/
def reorderModuleStep (sectionId : Nat) (item : Nat × Nat)
    (mods : List Module) : ItemRes Module × List Module :=
  if item.2 < 1 then (.invalid, mods)
  else
    match findAndUpdateFirst
        (fun m => m.id == item.1 && m.sectionId == sectionId)
        (fun m => { m with order := item.2 }) mods with
    | (none, _) => (.notFound, mods)
    | (some d, mods') => (.updated d, mods')

def reorderModulesAll (sectionId : Nat) (items : List (Nat × Nat))
    (mods : List Module) : List (ItemRes Module) × List Module :=
  match items with
  | [] => ([], mods)
  | item :: rest =>
    let r := reorderModuleStep sectionId item mods
    let rr := reorderModulesAll sectionId rest r.2
    (r.1 :: rr.1, rr.2)

/-- Handler `reorderModules`: instructor, section existence and ownership checks,
non-empty input check, then every update is issued before the results are
scanned (the same post-hoc 500/404 reporting as `reorderSections`). -/
def reorderModules (actor : AuthUser) (sectionId : Nat)
    (items : List (Nat × Nat)) (s : Store) : Resp (List Module) × Store :=
  if actor.role ≠ .instructor then
    (.err 403 "Only instructors can reorder modules", s)
  else
    match s.sections.find? (fun x => x.id == sectionId) with
    | none => (.err 404 "Section not found", s)
    | some sec =>
      match s.courses.find? (fun c => c.id == sec.courseId && c.instructorId == actor.id) with
      | none => (.err 403 "You do not have permission to modify this course", s)
      | some _ =>
        if items.isEmpty then (.err 400 "Invalid module orders provided", s)
        else
          let r := reorderModulesAll sectionId items s.modules
          let s' := { s with modules := r.2 }
          if r.1.any ItemRes.isInvalid then (.err 500 "Failed to reorder modules", s')
          else if r.1.any ItemRes.isNotFound then
            (.err 404 "One or more modules not found", s')
          else
            (.ok 200 "Modules reordered successfully" (r.1.filterMap ItemRes.doc?), s')

/-! ## Course controller (controllers/courseController.ts) -/

/-- Request body of `PUT /api/courses/:id` after the zod
`updateCourseSchema`, which strips unknown keys — but the controller itself
additionally executes `delete updates.instructorId`, so the patch is
modelled with an `instructorId` field to show that it is stripped. -/
structure CoursePatch where
  title : Option String := none
  description : Option String := none
  category : Option String := none
  level : Option Level := none
  price : Option Nat := none
  duration : Option Nat := none
  instructorId : Option Nat := none
deriving DecidableEq, Repr

def applyCoursePatch (p : CoursePatch) (c : Course) : Course :=
  { c with
    title := p.title.getD c.title,
    description := p.description.getD c.description,
    category := p.category.getD c.category,
    level := p.level.getD c.level,
    price := p.price.getD c.price,
    duration := match p.duration with | some d => some d | none => c.duration,
    instructorId := p.instructorId.getD c.instructorId }

/-- Handler `updateCourse`: course lookup (404), ownership check (403),
`delete updates.instructorId`, then `findByIdAndUpdate`. -/
def updateCourse (actor : AuthUser) (id : Nat) (p : CoursePatch)
    (s : Store) : Resp Course × Store :=
  match s.courses.find? (fun c => c.id == id) with
  | none => (.err 404 "Course not found", s)
  | some course =>
    if course.instructorId != actor.id then
      (.err 403 "You can only update your own courses", s)
    else
      let p' := { p with instructorId := none }
      let r := findAndUpdateFirst (fun c => c.id == id) (applyCoursePatch p') s.courses
      (.ok 200 "Course updated successfully" (applyCoursePatch p' course),
        { s with courses := r.2 })

/-- Handler `deleteCourse`: course lookup (404), ownership check (403), enrollment
guard — `enrollmentCount > 0` is rejected with status 400 — then
`findByIdAndDelete`. -/
def deleteCourse (actor : AuthUser) (id : Nat) (s : Store) : Resp Unit × Store :=
  match s.courses.find? (fun c => c.id == id) with
  | none => (.err 404 "Course not found", s)
  | some course =>
    if course.instructorId != actor.id then
      (.err 403 "You can only delete your own courses", s)
    else if course.enrollmentCount > 0 then
      (.err 400 "Cannot delete course with active enrollments", s)
    else
      (.ok 200 "Course deleted successfully" (),
        { s with courses := s.courses.eraseP (fun c => c.id == id) })

/-! ## Auth controller (controllers/authController.ts) -/

/-- Registration body.  The zod schemas only pass email/password/name (plus
bio for instructors), but even a raw body with a `role` field is harmless:
the controller destructures only the fields it uses, so `role` here is
carried to show it is never read. -/
structure RegisterBody where
  email : String
  password : String
  name : String
  bio : Option String := none
  role : Option Role := none
deriving DecidableEq, Repr

/-- The `userResponse` object built by the register handlers:
`{_id, email, name, role}` — no password field at all. -/
structure UserResponse where
  id : Nat
  email : String
  name : String
  role : Role
deriving DecidableEq, Repr

/-- Handler `registerStudent`: duplicate-email check (409), hash the password, save
a user whose role is the hardcoded `'student'`. -/
def registerStudent (hash : String → String) (body : RegisterBody)
    (s : Store) : Resp UserResponse × Store :=
  match s.users.find? (fun u => u.email == body.email) with
  | some _ => (.err 409 "User with this email already exists", s)
  | none =>
    let user : User :=
      { id := s.nextId, email := body.email,
        password := some (hash body.password), name := body.name,
        role := .student }
    (.ok 201 "Student registered successfully"
      { id := user.id, email := user.email, name := user.name, role := user.role },
      { s with users := s.users ++ [user], nextId := s.nextId + 1 })

/-- Handler `registerInstructor`: duplicate-email check (409), hash the password,
save a user whose role is the hardcoded `'instructor'` (`bio: bio || ''`). -/
def registerInstructor (hash : String → String) (body : RegisterBody)
    (s : Store) : Resp UserResponse × Store :=
  match s.users.find? (fun u => u.email == body.email) with
  | some _ => (.err 409 "User with this email already exists", s)
  | none =>
    let user : User :=
      { id := s.nextId, email := body.email,
        password := some (hash body.password), name := body.name,
        role := .instructor, bio := some (body.bio.getD "") }
    (.ok 201 "Instructor registered successfully"
      { id := user.id, email := user.email, name := user.name, role := user.role },
      { s with users := s.users ++ [user], nextId := s.nextId + 1 })

/-- Handler `login`: `findOne({email}).select('+password')`; absent record → 401;
`comparePassword` failure → 401 with the identical message; on success the
handler executes `delete user.password` and responds with the user.  On a
hydrated mongoose document that `delete` is a no-op — schema paths are
prototype accessors, not own properties — and `res.json` serializes the
document's `_doc`, which still holds the hash put there by the explicit
`'+password'` selection; so the success response carries the stored hash
unchanged.  `verify pw hash` stands for the opaque bcrypt compare against
the stored hash. -/
def login (verify : String → Option String → Bool) (email password : String)
    (s : Store) : Resp User :=
  match s.users.find? (fun u => u.email == email) with
  | none => .err 401 "Invalid email or password"
  | some user =>
    if ¬ verify password user.password then
      .err 401 "Invalid email or password"
    else
      .ok 200 "Login successful" user

/-- Handler `getProfile`: `findById(req.userId).select('-password')`. -/
def getProfile (userId : Nat) (s : Store) : Resp User :=
  match s.users.find? (fun u => u.id == userId) with
  | none => .err 404 "User not found"
  | some user => .ok 200 "Profile retrieved successfully" { user with password := none }

/-! ## Store invariants -/

/-- The per-course uniqueness key of a section: the compound
`(courseId, order)` pair the spec's invariant speaks about. -/
def sectionKey (x : Section) : Nat × Nat := (x.courseId, x.order)

/-- The per-section uniqueness key of a module. -/
def moduleKey (m : Module) : Nat × Nat := (m.sectionId, m.order)

/-- Store well-formedness: generated ids of sections and modules are
pairwise distinct and below the generator, and the order-uniqueness
invariant holds for sections within a course and modules within a
section. -/
def Wf (s : Store) : Prop :=
  (s.sections.map Section.id).Nodup ∧
  (∀ x ∈ s.sections, x.id < s.nextId) ∧
  (s.sections.map sectionKey).Nodup ∧
  (s.modules.map Module.id).Nodup ∧
  (∀ m ∈ s.modules, m.id < s.nextId) ∧
  (s.modules.map moduleKey).Nodup

instance (s : Store) : Decidable (Wf s) := by
  unfold Wf; infer_instance

/-- A create/update call on the content hierarchy (the reorder operations
are deliberately not in this type: they carry no uniqueness check). -/
inductive ContentOp where
  | createSec (actor : AuthUser) (courseId : Nat) (body : SectionBody)
  | updateSec (actor : AuthUser) (courseId sectionId : Nat) (p : SectionPatch)
  | createMod (actor : AuthUser) (sectionId : Nat) (body : ModuleBody)
  | updateMod (actor : AuthUser) (sectionId moduleId : Nat) (p : ModulePatch)

def applyContentOp (op : ContentOp) (s : Store) : Store :=
  match op with
  | .createSec a cid b => (createSection a cid b s).2
  | .updateSec a cid sid p => (updateSection a cid sid p s).2
  | .createMod a sid b => (createModule a sid b s).2
  | .updateMod a sid mid p => (updateModule a sid mid p s).2

def runContentOps (ops : List ContentOp) (s : Store) : Store :=
  ops.foldl (fun st op => applyContentOp op st) s

/-! ## Generic lemmas about the first-match update -/

theorem findAndUpdateFirst_fst (p : α → Bool) (f : α → α) (l : List α) :
    (findAndUpdateFirst p f l).1 = (l.find? p).map f := by
  induction l with
  | nil => simp [findAndUpdateFirst]
  | cons x xs ih =>
    by_cases h : p x
    · simp [findAndUpdateFirst, h, List.find?_cons_of_pos _ h]
    · simp [findAndUpdateFirst, h, List.find?_cons_of_neg _ h, ih]

theorem findAndUpdateFirst_snd_of_none (p : α → Bool) (f : α → α) (l : List α)
    (h : l.find? p = none) : (findAndUpdateFirst p f l).2 = l := by
  induction l with
  | nil => rfl
  | cons x xs ih =>
    rw [List.find?_cons] at h
    cases hp : p x with
    | true => simp [hp] at h
    | false =>
      simp only [hp] at h
      simp [findAndUpdateFirst, hp, ih h]

theorem findAndUpdateFirst_decomp (p : α → Bool) (f : α → α) (l : List α) (x : α)
    (h : l.find? p = some x) :
    ∃ l₁ l₂, (∀ b ∈ l₁, p b = false) ∧ l = l₁ ++ x :: l₂ ∧
      (findAndUpdateFirst p f l).2 = l₁ ++ f x :: l₂ := by
  induction l with
  | nil => simp at h
  | cons a as ih =>
    by_cases hp : p a
    · rw [List.find?_cons_of_pos _ hp] at h
      cases h
      exact ⟨[], as, by simp, rfl, by simp [findAndUpdateFirst, hp]⟩
    · rw [List.find?_cons_of_neg _ hp] at h
      obtain ⟨l₁, l₂, h1, h2, h3⟩ := ih h
      refine ⟨a :: l₁, l₂, ?_, by rw [h2]; rfl, ?_⟩
      · intro b hb
        rcases List.mem_cons.1 hb with rfl | hb
        · exact Bool.eq_false_iff.2 hp
        · exact h1 b hb
      · simp [findAndUpdateFirst, hp, h3]

theorem map_findAndUpdateFirst (p : α → Bool) (f : α → α) (g : α → β) (l : List α)
    (hg : ∀ x, p x = true → g (f x) = g x) :
    ((findAndUpdateFirst p f l).2).map g = l.map g := by
  induction l with
  | nil => rfl
  | cons a as ih =>
    by_cases hp : p a
    · simp [findAndUpdateFirst, hp, hg a hp]
    · simp [findAndUpdateFirst, hp, ih]

theorem nodup_map_append_single (key : α → β) (l : List α) (a : α)
    (hnd : (l.map key).Nodup) (ha : ∀ y ∈ l, key y ≠ key a) :
    (((l ++ [a]).map key)).Nodup := by
  rw [List.map_append, List.nodup_append]
  refine ⟨hnd, by simp, ?_⟩
  intro b hb hb'
  simp only [List.map_cons, List.map_nil, List.mem_singleton] at hb'
  obtain ⟨y, hy, rfl⟩ := List.mem_map.1 hb
  exact ha y hy hb'

theorem nodup_map_findAndUpdateFirst (p : α → Bool) (f : α → α) (key : α → β)
    (l : List α) (x : α)
    (hnd : (l.map key).Nodup)
    (hx : l.find? p = some x)
    (hother : ∀ y ∈ l, p y = false → key y ≠ key (f x))
    (hsame : ∀ y ∈ l, p y = true → y = x) :
    ((((findAndUpdateFirst p f l).2).map key)).Nodup := by
  obtain ⟨l₁, l₂, hb, hl, hupd⟩ := findAndUpdateFirst_decomp p f l x hx
  subst hl
  rw [hupd, List.map_append, List.map_cons, List.nodup_middle]
  rw [List.map_append, List.map_cons, List.nodup_middle] at hnd
  rw [List.nodup_cons] at hnd ⊢
  refine ⟨?_, hnd.2⟩
  intro hmem
  rw [← List.map_append] at hmem
  obtain ⟨y, hy, hkey⟩ := List.mem_map.1 hmem
  have hyl : y ∈ l₁ ++ x :: l₂ := by
    rcases List.mem_append.1 hy with h | h
    · exact List.mem_append.2 (Or.inl h)
    · exact List.mem_append.2 (Or.inr (List.mem_cons_of_mem _ h))
  cases hpy : p y with
  | false => exact hother y hyl hpy hkey
  | true =>
    have hyx : y = x := hsame y hyl hpy
    apply hnd.1
    rw [← List.map_append]
    exact List.mem_map.2 ⟨y, hy, by rw [hyx]⟩

theorem mem_map_findAndUpdateFirst (p : α → Bool) (f : α → α) (g : α → β)
    (l : List α) (hg : ∀ x, p x = true → g (f x) = g x)
    (y : α) (hy : y ∈ (findAndUpdateFirst p f l).2) : g y ∈ l.map g := by
  rw [← map_findAndUpdateFirst p f g l hg]
  exact List.mem_map.2 ⟨y, hy, rfl⟩

/-! ## Preservation of well-formedness by create/update -/

theorem applySectionPatch_id (p : SectionPatch) (x : Section) :
    (applySectionPatch p x).id = x.id := rfl

theorem applySectionPatch_courseId (p : SectionPatch) (x : Section) :
    (applySectionPatch p x).courseId = x.courseId := rfl

theorem applyModulePatch_id (p : ModulePatch) (m : Module) :
    (applyModulePatch p m).id = m.id := rfl

theorem applyModulePatch_sectionId (p : ModulePatch) (m : Module) :
    (applyModulePatch p m).sectionId = m.sectionId := rfl

theorem wf_createSection (a : AuthUser) (cid : Nat) (b : SectionBody) (s : Store)
    (h : Wf s) : Wf (createSection a cid b s).2 := by
  obtain ⟨h1, h2, h3, h4, h5, h6⟩ := h
  unfold createSection
  split
  · exact ⟨h1, h2, h3, h4, h5, h6⟩
  split
  · exact ⟨h1, h2, h3, h4, h5, h6⟩
  split
  · exact ⟨h1, h2, h3, h4, h5, h6⟩
  split
  · exact ⟨h1, h2, h3, h4, h5, h6⟩
  rename_i hrole course hcourse hdup hord
  refine ⟨?_, ?_, ?_, h4, ?_, h6⟩
  · exact nodup_map_append_single _ _ _ h1 (fun y hy => Nat.ne_of_lt (h2 y hy))
  · intro x hx
    rcases List.mem_append.1 hx with hx | hx
    · exact Nat.lt_trans (h2 x hx) (Nat.lt_succ_self _)
    · rw [List.mem_singleton.1 hx]
      exact Nat.lt_succ_self _
  · refine nodup_map_append_single _ _ _ h3 ?_
    intro y hy hkey
    have hnone := List.find?_eq_none.1 hdup y hy
    simp only [sectionKey, Prod.mk.injEq] at hkey
    simp only [Bool.and_eq_true, beq_iff_eq, not_and] at hnone
    exact hnone hkey.1 hkey.2
  · intro m hm
    exact Nat.lt_trans (h5 m hm) (Nat.lt_succ_self _)

theorem wf_updateSection (a : AuthUser) (cid sid : Nat) (p : SectionPatch)
    (s : Store) (h : Wf s) : Wf (updateSection a cid sid p s).2 := by
  obtain ⟨h1, h2, h3, h4, h5, h6⟩ := h
  unfold updateSection
  split
  · exact ⟨h1, h2, h3, h4, h5, h6⟩
  split
  · exact ⟨h1, h2, h3, h4, h5, h6⟩
  split
  · exact ⟨h1, h2, h3, h4, h5, h6⟩
  split
  · exact ⟨h1, h2, h3, h4, h5, h6⟩
  split
  · exact ⟨h1, h2, h3, h4, h5, h6⟩
  rename_i hrole course hcourse hconf hord res sec secs heq
  have hsnd : secs = (findAndUpdateFirst
      (fun x => x.id == sid && x.courseId == cid) (applySectionPatch p) s.sections).2 :=
    (congrArg Prod.snd heq).symm
  have hfst : (findAndUpdateFirst
      (fun x => x.id == sid && x.courseId == cid) (applySectionPatch p) s.sections).1
      = some sec := congrArg Prod.fst heq
  have hid : ∀ x, ((fun x => x.id == sid && x.courseId == cid) x) = true →
      (applySectionPatch p x).id = x.id := fun x _ => rfl
  refine ⟨?_, ?_, ?_, h4, h5, h6⟩
  · rw [hsnd, map_findAndUpdateFirst _ _ _ _ hid]
    exact h1
  · intro x hx
    rw [hsnd] at hx
    have := mem_map_findAndUpdateFirst _ _ Section.id _ hid x hx
    obtain ⟨y, hy, hyx⟩ := List.mem_map.1 this
    rw [← hyx]
    exact h2 y hy
  · -- the order-uniqueness key
    rw [hsnd]
    cases htr : truthyNat p.order with
    | false =>
      have hpo : p.order = none := by
        cases hp : p.order with
        | none => rfl
        | some n =>
          exfalso
          rw [hp] at htr hord
          have hn : n = 0 := by simpa [truthyNat] using htr
          rw [hn] at hord
          exact hord (by decide)
      have hkeep : ∀ x, ((fun x => x.id == sid && x.courseId == cid) x) = true →
          sectionKey (applySectionPatch p x) = sectionKey x := by
        intro x _
        simp [sectionKey, applySectionPatch, hpo]
      rw [map_findAndUpdateFirst _ _ _ _ hkeep]
      exact h3
    | true =>
      rw [htr, if_pos rfl] at hconf
      obtain ⟨o, hpo⟩ : ∃ o, p.order = some o := by
        cases hp : p.order with
        | none => rw [hp] at htr; simp [truthyNat] at htr
        | some n => exact ⟨n, rfl⟩
      rw [findAndUpdateFirst_fst, Option.map_eq_some'] at hfst
      obtain ⟨x, hx, hfx⟩ := hfst
      have hpx := List.find?_some hx
      simp only [Bool.and_eq_true, beq_iff_eq] at hpx
      have hkeyfx : sectionKey (applySectionPatch p x) = (cid, o) := by
        simp [sectionKey, applySectionPatch, hpo, hpx.2]
      refine nodup_map_findAndUpdateFirst _ _ _ _ x h3 hx ?_ ?_
      · intro y hy hpy hkey
        rw [hkeyfx] at hkey
        simp only [sectionKey, Prod.mk.injEq] at hkey
        have hnone := List.find?_eq_none.1 hconf y hy
        simp only [hpo, Bool.and_eq_true, beq_iff_eq, bne_iff_ne, ne_eq,
          Option.some.injEq, not_and, Decidable.not_not] at hnone
        have hyid : y.id = sid := hnone ⟨hkey.1, hkey.2⟩
        simp [hyid, hkey.1] at hpy
      · intro y hy hpy
        simp only [Bool.and_eq_true, beq_iff_eq] at hpy
        exact List.inj_on_of_nodup_map h1 hy (List.mem_of_find?_eq_some hx)
          (by rw [hpy.1, hpx.1])


theorem wf_createModule (a : AuthUser) (sid : Nat) (b : ModuleBody) (s : Store)
    (h : Wf s) : Wf (createModule a sid b s).2 := by
  obtain ⟨h1, h2, h3, h4, h5, h6⟩ := h
  unfold createModule
  split
  · exact ⟨h1, h2, h3, h4, h5, h6⟩
  split
  · exact ⟨h1, h2, h3, h4, h5, h6⟩
  split
  · exact ⟨h1, h2, h3, h4, h5, h6⟩
  split
  · exact ⟨h1, h2, h3, h4, h5, h6⟩
  split
  · exact ⟨h1, h2, h3, h4, h5, h6⟩
  rename_i hrole sec hsec course hcourse hdup hord
  refine ⟨h1, ?_, h3, ?_, ?_, ?_⟩
  · intro x hx
    exact Nat.lt_trans (h2 x hx) (Nat.lt_succ_self _)
  · exact nodup_map_append_single _ _ _ h4 (fun y hy => Nat.ne_of_lt (h5 y hy))
  · intro m hm
    rcases List.mem_append.1 hm with hm | hm
    · exact Nat.lt_trans (h5 m hm) (Nat.lt_succ_self _)
    · rw [List.mem_singleton.1 hm]
      exact Nat.lt_succ_self _
  · refine nodup_map_append_single _ _ _ h6 ?_
    intro y hy hkey
    have hnone := List.find?_eq_none.1 hdup y hy
    simp only [moduleKey, Prod.mk.injEq] at hkey
    simp only [Bool.and_eq_true, beq_iff_eq, not_and] at hnone
    exact hnone hkey.1 hkey.2

theorem wf_updateModule (a : AuthUser) (sid mid : Nat) (p : ModulePatch)
    (s : Store) (h : Wf s) : Wf (updateModule a sid mid p s).2 := by
  obtain ⟨h1, h2, h3, h4, h5, h6⟩ := h
  unfold updateModule
  split
  · exact ⟨h1, h2, h3, h4, h5, h6⟩
  split
  · exact ⟨h1, h2, h3, h4, h5, h6⟩
  split
  · exact ⟨h1, h2, h3, h4, h5, h6⟩
  split
  · exact ⟨h1, h2, h3, h4, h5, h6⟩
  split
  · exact ⟨h1, h2, h3, h4, h5, h6⟩
  split
  · exact ⟨h1, h2, h3, h4, h5, h6⟩
  rename_i hrole sec hsec course hcourse hconf hord res md mods heq
  have hsnd : mods = (findAndUpdateFirst
      (fun m => m.id == mid && m.sectionId == sid) (applyModulePatch p) s.modules).2 :=
    (congrArg Prod.snd heq).symm
  have hfst : (findAndUpdateFirst
      (fun m => m.id == mid && m.sectionId == sid) (applyModulePatch p) s.modules).1
      = some md := congrArg Prod.fst heq
  have hid : ∀ m, ((fun m => m.id == mid && m.sectionId == sid) m) = true →
      (applyModulePatch p m).id = m.id := fun m _ => rfl
  refine ⟨h1, h2, h3, ?_, ?_, ?_⟩
  · rw [hsnd, map_findAndUpdateFirst _ _ _ _ hid]
    exact h4
  · intro m hm
    rw [hsnd] at hm
    have := mem_map_findAndUpdateFirst _ _ Module.id _ hid m hm
    obtain ⟨y, hy, hym⟩ := List.mem_map.1 this
    rw [← hym]
    exact h5 y hy
  · rw [hsnd]
    cases htr : truthyNat p.order with
    | false =>
      have hpo : p.order = none := by
        cases hp : p.order with
        | none => rfl
        | some n =>
          exfalso
          rw [hp] at htr hord
          have hn : n = 0 := by simpa [truthyNat] using htr
          rw [hn] at hord
          exact hord (by decide)
      have hkeep : ∀ m, ((fun m => m.id == mid && m.sectionId == sid) m) = true →
          moduleKey (applyModulePatch p m) = moduleKey m := by
        intro m _
        simp [moduleKey, applyModulePatch, hpo]
      rw [map_findAndUpdateFirst _ _ _ _ hkeep]
      exact h6
    | true =>
      rw [htr, if_pos rfl] at hconf
      obtain ⟨o, hpo⟩ : ∃ o, p.order = some o := by
        cases hp : p.order with
        | none => rw [hp] at htr; simp [truthyNat] at htr
        | some n => exact ⟨n, rfl⟩
      rw [findAndUpdateFirst_fst, Option.map_eq_some'] at hfst
      obtain ⟨x, hx, hfx⟩ := hfst
      have hpx := List.find?_some hx
      simp only [Bool.and_eq_true, beq_iff_eq] at hpx
      have hkeyfx : moduleKey (applyModulePatch p x) = (sid, o) := by
        simp [moduleKey, applyModulePatch, hpo, hpx.2]
      refine nodup_map_findAndUpdateFirst _ _ _ _ x h6 hx ?_ ?_
      · intro y hy hpy hkey
        rw [hkeyfx] at hkey
        simp only [moduleKey, Prod.mk.injEq] at hkey
        have hnone := List.find?_eq_none.1 hconf y hy
        simp only [hpo, Bool.and_eq_true, beq_iff_eq, bne_iff_ne, ne_eq,
          Option.some.injEq, not_and, Decidable.not_not] at hnone
        have hyid : y.id = mid := hnone ⟨hkey.1, hkey.2⟩
        simp [hyid, hkey.1] at hpy
      · intro y hy hpy
        simp only [Bool.and_eq_true, beq_iff_eq] at hpy
        exact List.inj_on_of_nodup_map h4 hy (List.mem_of_find?_eq_some hx)
          (by rw [hpy.1, hpx.1])

theorem wf_applyContentOp (op : ContentOp) (s : Store) (h : Wf s) :
    Wf (applyContentOp op s) := by
  cases op with
  | createSec a cid b => exact wf_createSection a cid b s h
  | updateSec a cid sid p => exact wf_updateSection a cid sid p s h
  | createMod a sid b => exact wf_createModule a sid b s h
  | updateMod a sid mid p => exact wf_updateModule a sid mid p s h

theorem wf_runContentOps (ops : List ContentOp) (s : Store) (h : Wf s) :
    Wf (runContentOps ops s) := by
  induction ops generalizing s with
  | nil => exact h
  | cons op rest ih => exact ih _ (wf_applyContentOp op s h)

/-! ## Concrete fixtures for witnesses and counterexamples -/

def instrA : AuthUser := ⟨100, .instructor⟩

def courseA : Course :=
  { id := 0, title := "c", description := "d", category := "g", instructorId := 100 }

def secA : Section := { id := 1, courseId := 0, title := "s1", order := 1 }

def secB : Section := { id := 2, courseId := 0, title := "s2", order := 2 }

def modA : Module :=
  { id := 3, sectionId := 1, title := "m1", type := .video, content := "u", order := 1 }

def storeA : Store :=
  { courses := [courseA], sections := [secA, secB], modules := [modA], nextId := 4 }

def storeC7 : Store :=
  { users := [{ id := 7, email := "a@b.c", password := some "right",
                name := "n", role := .student }], nextId := 8 }

/-- Observation helper: the password field carried by a user-valued
response (`none` for error responses). -/
def Resp.userPassword : Resp User → Option String
  | .ok _ _ u => u.password
  | .err _ _ => none

/-! ## Claim theorems -/

/-- C6: for every `updateCourse` call — whatever the patch, even one
carrying an `instructorId` field — the `instructorId` of every stored
course after the call equals its value before the call: the controller
strips `updates.instructorId` before applying the patch, so instructor
identity on a course is immutable post-creation. -/
theorem updateCourse_instructorId_immutable (a : AuthUser) (id : Nat)
    (p : CoursePatch) (s : Store) :
    (updateCourse a id p s).2.courses.map Course.instructorId
      = s.courses.map Course.instructorId := by
  unfold updateCourse
  split
  · rfl
  split
  · rfl
  exact map_findAndUpdateFirst _ _ _ _ (fun x _ => rfl)

/-- C10: evaluation at the failing input.  A successful login for the
stored user whose hash is "right" answers 200 with a user object that
still carries the stored password hash: the handler's
`delete user.password` is a no-op on a hydrated mongoose document, and the
`'+password'` selection put the hash into the serialized document — the
claim (and the handler's own comment "Create user response without
password") says the hash must be absent.  The `getProfile` half of the
claim does hold in the code: `select('-password')` omits the hash. -/
theorem login_response_carries_hash :
    login (fun pw h => h == some pw) "a@b.c" "right" storeC7
      = .ok 200 "Login successful"
          { id := 7, email := "a@b.c", password := some "right",
            name := "n", role := .student } ∧
    (login (fun pw h => h == some pw) "a@b.c" "right" storeC7).userPassword
      = some "right" ∧
    (∀ (uid : Nat) (s : Store), (getProfile uid s).userPassword = none) := by
  refine ⟨by decide, by decide, ?_⟩
  intro uid s
  unfold getProfile
  split
  · rfl
  · rfl

/-- C7: the two `login` failure modes are indistinguishable: an email with
no user record and a present record whose stored hash does not verify both
produce `Unauthorized` (401) with the identical message
"Invalid email or password". -/
theorem login_failures_indistinguishable (verify : String → Option String → Bool)
    (s : Store) (e1 p1 e2 p2 : String) (u : User)
    (h1 : s.users.find? (fun x => x.email == e1) = none)
    (h2 : s.users.find? (fun x => x.email == e2) = some u)
    (h3 : verify p2 u.password = false) :
    login verify e1 p1 s = .err 401 "Invalid email or password" ∧
    login verify e2 p2 s = .err 401 "Invalid email or password" ∧
    login verify e1 p1 s = login verify e2 p2 s := by
  have ha : login verify e1 p1 s = .err 401 "Invalid email or password" := by
    simp [login, h1]
  have hb : login verify e2 p2 s = .err 401 "Invalid email or password" := by
    simp [login, h2, h3]
  exact ⟨ha, hb, by rw [ha, hb]⟩

/-- C7 witness: a store with one user; login with an unknown email and
login with the right email but a wrong password produce the identical 401
response. -/
theorem login_failures_indistinguishable_witness :
    login (fun pw h => h == some pw) "x@y.z" "pw" storeC7 = .err 401 "Invalid email or password" ∧
    login (fun pw h => h == some pw) "a@b.c" "wrong" storeC7 = .err 401 "Invalid email or password" ∧
    login (fun pw h => h == some pw) "x@y.z" "pw" storeC7
      = login (fun pw h => h == some pw) "a@b.c" "wrong" storeC7 :=
  login_failures_indistinguishable (fun pw h => h == some pw) storeC7
    "x@y.z" "pw" "a@b.c" "wrong"
    { id := 7, email := "a@b.c", password := some "right", name := "n", role := .student }
    (by decide) (by decide) (by decide)

/-- C4 (amended): creating a section (resp. module) whose requested order is
already taken by a sibling of the same parent is rejected and the store is
left unchanged — the pre-existing sibling is unaffected, nothing is
persisted, and collisions are never auto-resolved by shifting — but the
rejection carries HTTP status 400 ("order already exists"), not 409. -/
theorem create_order_conflict_rejected
    (a : AuthUser) (cid sid : Nat) (b : SectionBody) (mb : ModuleBody)
    (sec : Section) (s : Store)
    (hrole : a.role = .instructor)
    (hcourse : (s.courses.find? (fun c => c.id == cid && c.instructorId == a.id)).isSome)
    (hdup : (s.sections.find? (fun x => x.courseId == cid && x.order == b.order)).isSome)
    (hsec : s.sections.find? (fun x => x.id == sid) = some sec)
    (hmcourse : (s.courses.find? (fun c => c.id == sec.courseId && c.instructorId == a.id)).isSome)
    (hmdup : (s.modules.find? (fun m => m.sectionId == sid && m.order == mb.order)).isSome) :
    createSection a cid b s =
      (.err 400 ("A section with order " ++ toString b.order ++
        " already exists. Please use a different order."), s) ∧
    createModule a sid mb s =
      (.err 400 ("A module with order " ++ toString mb.order ++
        " already exists. Please use a different order."), s) := by
  obtain ⟨c, hc⟩ := Option.isSome_iff_exists.1 hcourse
  obtain ⟨d, hd⟩ := Option.isSome_iff_exists.1 hdup
  obtain ⟨c2, hc2⟩ := Option.isSome_iff_exists.1 hmcourse
  obtain ⟨d2, hd2⟩ := Option.isSome_iff_exists.1 hmdup
  constructor
  · simp [createSection, hrole, hc, hd]
  · simp [createModule, hrole, hsec, hc2, hd2]

/-- C4 witness: on a store holding course 0 with a section of order 1 and a
module of order 1, re-creating the same orders is rejected with status 400
and the store is untouched. -/
theorem create_order_conflict_rejected_witness :
    createSection instrA 0 { title := "t", order := 1 } storeA =
      (.err 400 ("A section with order " ++ toString 1 ++
        " already exists. Please use a different order."), storeA) ∧
    createModule instrA 1 { title := "t", type := .video, content := "c", order := 1 } storeA =
      (.err 400 ("A module with order " ++ toString 1 ++
        " already exists. Please use a different order."), storeA) :=
  create_order_conflict_rejected instrA 0 1 { title := "t", order := 1 }
    { title := "t", type := .video, content := "c", order := 1 } secA storeA
    (by decide) (by decide) (by decide) (by decide) (by decide) (by decide)

/-- C4 counterexample: the claim as stated requires HTTP 409 for a duplicate
sibling order, but the controller answers 400: a concrete conflicting
`createSection` call returns status 400. -/
theorem create_order_conflict_status_counterexample :
    (createSection instrA 0 { title := "t", order := 1 } storeA).1.statusOf = 400 ∧
    (createSection instrA 0 { title := "t", order := 1 } storeA).2 = storeA := by
  constructor
  · decide
  · decide

def courseC5 : Course :=
  { id := 0, title := "c", description := "d", category := "g",
    instructorId := 100, enrollmentCount := 1 }

def storeC5 : Store := { courses := [courseC5], nextId := 1 }

/-- C5 (amended): for a course owned by the acting instructor,
`deleteCourse` is rejected if and only if the course has
`enrollmentCount > 0` — but with HTTP status 400
("Cannot delete course with active enrollments"), not 409 — and in that
case the store is unchanged; with zero enrollments the course is deleted. -/
theorem deleteCourse_enrollment_guard (a : AuthUser) (cid : Nat) (c : Course) (s : Store)
    (hc : s.courses.find? (fun x => x.id == cid) = some c)
    (hown : c.instructorId = a.id) :
    (deleteCourse a cid s = (.err 400 "Cannot delete course with active enrollments", s)
        ↔ 0 < c.enrollmentCount) ∧
    (0 < c.enrollmentCount → (deleteCourse a cid s).2 = s) ∧
    (c.enrollmentCount = 0 → (deleteCourse a cid s).1.statusOf = 200 ∧
        (deleteCourse a cid s).2.courses = s.courses.eraseP (fun x => x.id == cid)) := by
  have hbeq : (c.instructorId != a.id) = false := by simp [hown]
  refine ⟨⟨?_, ?_⟩, ?_, ?_⟩
  · intro h
    by_contra hn
    have hz : c.enrollmentCount = 0 := Nat.eq_zero_of_not_pos hn
    simp [deleteCourse, hc, hbeq, hz] at h
  · intro h
    simp [deleteCourse, hc, hbeq, h]
  · intro h
    simp [deleteCourse, hc, hbeq, h]
  · intro h
    simp [deleteCourse, hc, hbeq, h, Resp.statusOf]

/-- C5 witness: a course with one enrollment is not deletable (400, store
unchanged); the same course with zero enrollments is deleted (200). -/
theorem deleteCourse_enrollment_guard_witness :
    (deleteCourse instrA 0 storeC5 = (.err 400 "Cannot delete course with active enrollments", storeC5)
        ↔ 0 < courseC5.enrollmentCount) ∧
    (0 < courseC5.enrollmentCount → (deleteCourse instrA 0 storeC5).2 = storeC5) ∧
    (courseC5.enrollmentCount = 0 → (deleteCourse instrA 0 storeC5).1.statusOf = 200 ∧
        (deleteCourse instrA 0 storeC5).2.courses = storeC5.courses.eraseP (fun x => x.id == 0)) :=
  deleteCourse_enrollment_guard instrA 0 courseC5 storeC5 (by decide) (by decide)

/-- C5 counterexample: the claim as stated requires HTTP 409 when
enrollments exist, but the controller answers 400 on a concrete enrolled
course (and leaves it in the store). -/
theorem deleteCourse_enrollment_status_counterexample :
    (deleteCourse instrA 0 storeC5).1 = .err 400 "Cannot delete course with active enrollments" ∧
    (deleteCourse instrA 0 storeC5).2 = storeC5 := by
  constructor
  · decide
  · decide

/-- C8: a child looked up under the wrong parent is not leaked:
`getSection(courseId, sectionId)` answers 404 when the section with that id
belongs to a different course, and `getModule(sectionId, moduleId)` answers
404 when the module with that id belongs to a different section. -/
theorem scoped_lookup_not_leaked (s : Store) (cid sid sid2 mid : Nat)
    (x : Section) (m : Module)
    (hsecids : (s.sections.map Section.id).Nodup)
    (hx : x ∈ s.sections) (hxid : x.id = sid) (hxc : x.courseId ≠ cid)
    (hmodids : (s.modules.map Module.id).Nodup)
    (hm : m ∈ s.modules) (hmid : m.id = mid) (hms : m.sectionId ≠ sid2) :
    getSection cid sid s = .err 404 "Section not found" ∧
    getModule sid2 mid s = .err 404 "Module not found" := by
  constructor
  · have hnone : s.sections.find? (fun y => y.id == sid && y.courseId == cid) = none := by
      rw [List.find?_eq_none]
      intro y hy
      simp only [Bool.and_eq_true, beq_iff_eq, not_and]
      intro hyid
      have : y = x := List.inj_on_of_nodup_map hsecids hy hx (by rw [hyid, hxid])
      rw [this]
      exact hxc
    simp [getSection, hnone]
  · have hnone : s.modules.find? (fun y => y.id == mid && y.sectionId == sid2) = none := by
      rw [List.find?_eq_none]
      intro y hy
      simp only [Bool.and_eq_true, beq_iff_eq, not_and]
      intro hyid
      have : y = m := List.inj_on_of_nodup_map hmodids hy hm (by rw [hyid, hmid])
      rw [this]
      exact hms
    simp [getModule, hnone]

/-- C8 witness: section 1 lives in course 0 and module 3 in section 1;
fetching section 1 under course 5, or module 3 under section 7, answers
404. -/
theorem scoped_lookup_not_leaked_witness :
    getSection 5 1 storeA = .err 404 "Section not found" ∧
    getModule 7 3 storeA = .err 404 "Module not found" :=
  scoped_lookup_not_leaked storeA 5 1 7 3 secA modA
    (by decide) (by decide) (by decide) (by decide)
    (by decide) (by decide) (by decide) (by decide)

/-- C9: the role of a user created through registration is determined
solely by the endpoint, whatever the request body (including any `role`
field in it, which the handlers never read): either the email is taken and
no user is added, or `registerStudent` appends exactly one user with the
hardcoded role `student` and `registerInstructor` exactly one with the
hardcoded role `instructor` — so no registration can ever create an
`admin`. -/
theorem register_role_fixed_by_endpoint (hash : String → String)
    (body : RegisterBody) (s : Store) :
    ((registerStudent hash body s).2.users = s.users ∧
     (registerInstructor hash body s).2.users = s.users) ∨
    ((registerStudent hash body s).2.users = s.users ++
        [{ id := s.nextId, email := body.email, password := some (hash body.password),
           name := body.name, role := .student }] ∧
     (registerInstructor hash body s).2.users = s.users ++
        [{ id := s.nextId, email := body.email, password := some (hash body.password),
           name := body.name, role := .instructor, bio := some (body.bio.getD "") }]) := by
  cases hfind : s.users.find? (fun u => u.email == body.email) with
  | some u =>
    left
    constructor
    · simp [registerStudent, hfind]
    · simp [registerInstructor, hfind]
  | none =>
    right
    constructor
    · simp [registerStudent, hfind]
    · simp [registerInstructor, hfind]

/-- Outcome dichotomy of `deleteSection`: either the call reports 200 and
its committed effect removes the scoped section and sweeps the modules
with its `sectionId`, or it reports an error and the store is exactly as
it was — the transaction is all-or-nothing. -/
theorem deleteSection_cases (a : AuthUser) (cid sid : Nat) (t : Store) :
    ((deleteSection a cid sid t).1.statusOf = 200 ∧
      (t.sections.find? (fun x => x.id == sid && x.courseId == cid)).isSome ∧
      (deleteSection a cid sid t).2 =
        { t with
          sections := t.sections.eraseP (fun x => x.id == sid && x.courseId == cid),
          modules := t.modules.filter (fun m => m.sectionId != sid) }) ∨
    ((deleteSection a cid sid t).1.statusOf ≠ 200 ∧
      (deleteSection a cid sid t).2 = t) := by
  unfold deleteSection
  split
  · right
    exact ⟨by simp [Resp.statusOf], rfl⟩
  split
  · right
    exact ⟨by simp [Resp.statusOf], rfl⟩
  split
  · right
    exact ⟨by simp [Resp.statusOf], rfl⟩
  rename_i sec hfind
  left
  exact ⟨rfl, by rw [hfind]; rfl, rfl⟩

/-- C2 (amended): a successful `deleteSection(courseId, S.id)` removes S
and exactly the modules whose `sectionId` equals S.id — users, courses and
all other modules are untouched — atomically (any failing call leaves the
store unchanged); afterwards both `getSection(courseId, S.id)` and
`getModules(S.id)` return NotFound: `getModules` checks section existence
first, so it answers 404 rather than an empty list. -/
theorem deleteSection_cascade (a : AuthUser) (cid sid : Nat) (s : Store)
    (hids : (s.sections.map Section.id).Nodup)
    (hsucc : (deleteSection a cid sid s).1.statusOf = 200) :
    (deleteSection a cid sid s).2.modules
        = s.modules.filter (fun m => m.sectionId != sid) ∧
    (∀ x ∈ (deleteSection a cid sid s).2.sections, x.id ≠ sid) ∧
    getModules sid (deleteSection a cid sid s).2 = .err 404 "Section not found" ∧
    getSection cid sid (deleteSection a cid sid s).2 = .err 404 "Section not found" ∧
    (deleteSection a cid sid s).2.users = s.users ∧
    (deleteSection a cid sid s).2.courses = s.courses ∧
    (∀ (a' : AuthUser) (cid' sid' : Nat) (t : Store),
      (deleteSection a' cid' sid' t).1.statusOf ≠ 200 →
        (deleteSection a' cid' sid' t).2 = t) := by
  have hfp : (s.sections.find? (fun x => x.id == sid && x.courseId == cid)).isSome ∧
      (deleteSection a cid sid s).2 =
        { s with
          sections := s.sections.eraseP (fun x => x.id == sid && x.courseId == cid),
          modules := s.modules.filter (fun m => m.sectionId != sid) } := by
    rcases deleteSection_cases a cid sid s with ⟨-, h1, h2⟩ | ⟨hne, -⟩
    · exact ⟨h1, h2⟩
    · exact absurd hsucc hne
  obtain ⟨hfind, hpost⟩ := hfp
  obtain ⟨del, hdel⟩ := Option.isSome_iff_exists.1 hfind
  have hdelmem : del ∈ s.sections := List.mem_of_find?_eq_some hdel
  have hdelp := List.find?_some hdel
  have hnotin : ∀ x ∈ (deleteSection a cid sid s).2.sections, x.id ≠ sid := by
    rw [hpost]
    obtain ⟨a', l₁, l₂, hl₁, hpa', hsplit, herase⟩ :=
      List.exists_of_eraseP (p := fun x => x.id == sid && x.courseId == cid)
        hdelmem hdelp
    intro x hx hxid
    simp only [herase] at hx
    have hida' : a'.id = sid := by
      simp only [Bool.and_eq_true, beq_iff_eq] at hpa'
      exact hpa'.1
    rw [hsplit, List.map_append, List.map_cons, List.nodup_middle,
      List.nodup_cons] at hids
    exact hids.1 (by
      rw [← List.map_append]
      exact List.mem_map.2 ⟨x, hx, by rw [hxid, hida']⟩)
  refine ⟨by rw [hpost], hnotin, ?_, ?_, by rw [hpost], by rw [hpost],
    fun a' cid' sid' t h => by
      rcases deleteSection_cases a' cid' sid' t with ⟨h1, -, -⟩ | ⟨-, h2⟩
      · exact absurd h1 h
      · exact h2⟩
  · have hnone : (deleteSection a cid sid s).2.sections.find?
        (fun x => x.id == sid) = none := by
      rw [List.find?_eq_none]
      intro y hy
      simpa using hnotin y hy
    simp [getModules, hnone]
  · have hnone : (deleteSection a cid sid s).2.sections.find?
        (fun x => x.id == sid && x.courseId == cid) = none := by
      rw [List.find?_eq_none]
      intro y hy
      simp only [Bool.and_eq_true, beq_iff_eq, not_and]
      intro hyid
      exact absurd hyid (hnotin y hy)
    simp [getSection, hnone]

/-- C2 witness: deleting section 1 of course 0 on the concrete store
removes it together with its module, and both lookups then answer 404. -/
theorem deleteSection_cascade_witness :
    (deleteSection instrA 0 1 storeA).2.modules
        = storeA.modules.filter (fun m => m.sectionId != 1) ∧
    (∀ x ∈ (deleteSection instrA 0 1 storeA).2.sections, x.id ≠ 1) ∧
    getModules 1 (deleteSection instrA 0 1 storeA).2 = .err 404 "Section not found" ∧
    getSection 0 1 (deleteSection instrA 0 1 storeA).2 = .err 404 "Section not found" ∧
    (deleteSection instrA 0 1 storeA).2.users = storeA.users ∧
    (deleteSection instrA 0 1 storeA).2.courses = storeA.courses ∧
    (∀ (a' : AuthUser) (cid' sid' : Nat) (t : Store),
      (deleteSection a' cid' sid' t).1.statusOf ≠ 200 →
        (deleteSection a' cid' sid' t).2 = t) :=
  deleteSection_cascade instrA 0 1 storeA (by decide) (by decide)

/-- C2 counterexample: the claim says `getModules(S.id)` returns the empty
list after the section is deleted; on the concrete store the delete
succeeds (200) but `getModules` then answers 404 "Section not found",
because the handler requires the section to exist. -/
theorem getModules_after_delete_counterexample :
    (deleteSection instrA 0 1 storeA).1.statusOf = 200 ∧
    getModules 1 (deleteSection instrA 0 1 storeA).2
      = .err 404 "Section not found" := by
  constructor
  · decide
  · decide

/-- C1 (amended): starting from a well-formed store, after any sequence of
`createSection`, `updateSection`, `createModule` and `updateModule` calls
no two distinct sections of the same course share an `order`, and no two
distinct modules of the same section share an `order`.  `reorderSections`
and `reorderModules` must be excluded from the sequence: they run no
uniqueness check and a successful reorder can break the invariant (see the
counterexample). -/
theorem create_update_preserve_order_uniqueness (ops : List ContentOp)
    (s : Store) (h : Wf s) :
    (∀ x ∈ (runContentOps ops s).sections, ∀ y ∈ (runContentOps ops s).sections,
      x ≠ y → x.courseId = y.courseId → x.order ≠ y.order) ∧
    (∀ m ∈ (runContentOps ops s).modules, ∀ n ∈ (runContentOps ops s).modules,
      m ≠ n → m.sectionId = n.sectionId → m.order ≠ n.order) := by
  obtain ⟨-, -, h3, -, -, h6⟩ := wf_runContentOps ops s h
  constructor
  · intro x hx y hy hne hcid horder
    exact hne (List.inj_on_of_nodup_map h3 hx hy
      (by simp [sectionKey, hcid, horder]))
  · intro m hm n hn hne hsid horder
    exact hne (List.inj_on_of_nodup_map h6 hm hn
      (by simp [moduleKey, hsid, horder]))

def opsC1 : List ContentOp :=
  [.createSec instrA 0 { title := "t3", order := 3 },
   .updateSec instrA 0 1 { order := some 5 },
   .createMod instrA 1 { title := "m2", type := .article, content := "c", order := 2 },
   .updateMod instrA 1 3 { order := some 7 }]

/-- C1 witness: a concrete create/update sequence on the well-formed
concrete store keeps both uniqueness invariants. -/
theorem create_update_preserve_order_uniqueness_witness :
    Wf storeA ∧
    ((∀ x ∈ (runContentOps opsC1 storeA).sections,
        ∀ y ∈ (runContentOps opsC1 storeA).sections,
      x ≠ y → x.courseId = y.courseId → x.order ≠ y.order) ∧
     (∀ m ∈ (runContentOps opsC1 storeA).modules,
        ∀ n ∈ (runContentOps opsC1 storeA).modules,
      m ≠ n → m.sectionId = n.sectionId → m.order ≠ n.order)) :=
  ⟨by decide, create_update_preserve_order_uniqueness opsC1 storeA (by decide)⟩

/-- C1 counterexample: the claim also allows `reorderSections` in the
sequence; on the well-formed concrete store a single `reorderSections`
call succeeds (status 200) yet leaves two distinct sections of course 0
with the same order 2 — the order-uniqueness invariant does not survive
reorder calls. -/
theorem reorder_breaks_order_uniqueness :
    Wf storeA ∧
    (reorderSections instrA 0 [(1, 2)] storeA).1.statusOf = 200 ∧
    ∃ x ∈ (reorderSections instrA 0 [(1, 2)] storeA).2.sections,
      ∃ y ∈ (reorderSections instrA 0 [(1, 2)] storeA).2.sections,
        x ≠ y ∧ x.courseId = y.courseId ∧ x.order = y.order := by
  refine ⟨by decide, by decide, ?_⟩
  decide

/-! ## Reorder analysis (for C3) -/

/-- A `{sectionId, order}` pair resolves when some section of the stated
course has that id. -/
def resolvesSection (cid sid : Nat) (l : List Section) : Prop :=
  ∃ x ∈ l, x.id = sid ∧ x.courseId = cid

instance (cid sid : Nat) (l : List Section) :
    Decidable (resolvesSection cid sid l) := by
  unfold resolvesSection
  infer_instance

theorem resolvesSection_iff (cid sid : Nat) (l : List Section) :
    resolvesSection cid sid l ↔
      (sid, cid) ∈ l.map (fun x => (x.id, x.courseId)) := by
  unfold resolvesSection
  rw [List.mem_map]
  constructor
  · rintro ⟨x, hx, h1, h2⟩
    exact ⟨x, hx, by rw [h1, h2]⟩
  · rintro ⟨x, hx, hp⟩
    exact ⟨x, hx, congrArg Prod.fst hp, congrArg Prod.snd hp⟩

theorem reorderSectionStep_idCourse (cid : Nat) (it : Nat × Nat)
    (l : List Section) :
    ((reorderSectionStep cid it l).2).map (fun x => (x.id, x.courseId)) =
      l.map (fun x => (x.id, x.courseId)) := by
  unfold reorderSectionStep
  split
  · rfl
  split
  · rfl
  rename_i d l' heq
  have hl' : l' = (findAndUpdateFirst (fun x => x.id == it.1 && x.courseId == cid)
      (fun x => { x with order := it.2 }) l).2 := (congrArg Prod.snd heq).symm
  rw [hl']
  exact map_findAndUpdateFirst _ _ _ _ (fun x _ => rfl)

theorem reorderSectionStep_ids (cid : Nat) (it : Nat × Nat) (l : List Section) :
    ((reorderSectionStep cid it l).2).map Section.id = l.map Section.id := by
  unfold reorderSectionStep
  split
  · rfl
  split
  · rfl
  rename_i d l' heq
  have hl' : l' = (findAndUpdateFirst (fun x => x.id == it.1 && x.courseId == cid)
      (fun x => { x with order := it.2 }) l).2 := (congrArg Prod.snd heq).symm
  rw [hl']
  exact map_findAndUpdateFirst _ _ _ _ (fun x _ => rfl)

theorem resolvesSection_step (cid0 cid sid : Nat) (it : Nat × Nat)
    (l : List Section) :
    resolvesSection cid sid ((reorderSectionStep cid0 it l).2) ↔
      resolvesSection cid sid l := by
  rw [resolvesSection_iff, resolvesSection_iff, reorderSectionStep_idCourse]

theorem reorderSectionStep_mark (cid : Nat) (it : Nat × Nat) (l : List Section)
    (ho : 1 ≤ it.2) :
    ((reorderSectionStep cid it l).1.isInvalid = false) ∧
    ((reorderSectionStep cid it l).1.isNotFound = true ↔
      ¬ resolvesSection cid it.1 l) := by
  unfold reorderSectionStep
  rw [if_neg (by omega)]
  split
  · rename_i heq
    have hfst : (findAndUpdateFirst (fun x => x.id == it.1 && x.courseId == cid)
        (fun x => { x with order := it.2 }) l).1 = none := congrArg Prod.fst heq
    rw [findAndUpdateFirst_fst, Option.map_eq_none', List.find?_eq_none] at hfst
    refine ⟨rfl, ?_⟩
    simp only [ItemRes.isNotFound, true_iff]
    rintro ⟨x, hx, h1, h2⟩
    exact hfst x hx (by simp [h1, h2])
  · rename_i d l' heq
    have hfst : (findAndUpdateFirst (fun x => x.id == it.1 && x.courseId == cid)
        (fun x => { x with order := it.2 }) l).1 = some d := congrArg Prod.fst heq
    rw [findAndUpdateFirst_fst, Option.map_eq_some'] at hfst
    obtain ⟨z, hz, -⟩ := hfst
    have hzp := List.find?_some hz
    simp only [Bool.and_eq_true, beq_iff_eq] at hzp
    refine ⟨rfl, ?_, ?_⟩
    · intro h
      simp [ItemRes.isNotFound] at h
    · intro hres
      exact absurd ⟨z, List.mem_of_find?_eq_some hz, hzp.1, hzp.2⟩ hres

theorem reorderSectionsAll_marks (cid : Nat) (items : List (Nat × Nat))
    (l : List Section) (ho : ∀ it ∈ items, 1 ≤ it.2) :
    ((reorderSectionsAll cid items l).1.any ItemRes.isInvalid = false) ∧
    (((reorderSectionsAll cid items l).1.any ItemRes.isNotFound = true) ↔
      ∃ it ∈ items, ¬ resolvesSection cid it.1 l) := by
  revert ho
  induction items generalizing l with
  | nil =>
    intro ho
    simp [reorderSectionsAll]
  | cons hd rest ih =>
    intro ho
    have hohd : 1 ≤ hd.2 := ho hd (List.mem_cons_self _ _)
    have horest : ∀ it ∈ rest, 1 ≤ it.2 :=
      fun it hit => ho it (List.mem_cons_of_mem _ hit)
    obtain ⟨hstep1, hstep2⟩ := reorderSectionStep_mark cid hd l hohd
    obtain ⟨ih1, ih2⟩ := ih ((reorderSectionStep cid hd l).2) horest
    simp only [reorderSectionsAll, List.any_cons, Bool.or_eq_true, Bool.or_eq_false_iff]
    refine ⟨⟨hstep1, ih1⟩, ?_⟩
    constructor
    · rintro (h | h)
      · exact ⟨hd, List.mem_cons_self _ _, hstep2.1 h⟩
      · obtain ⟨it, hit, hres⟩ := ih2.1 h
        exact ⟨it, List.mem_cons_of_mem _ hit,
          fun hr => hres ((resolvesSection_step cid cid it.1 hd l).2 hr)⟩
    · rintro ⟨it, hit, hres⟩
      rcases List.mem_cons.1 hit with rfl | hit
      · exact Or.inl (hstep2.2 hres)
      · refine Or.inr (ih2.2 ⟨it, hit, ?_⟩)
        intro hr
        exact hres ((resolvesSection_step cid cid it.1 hd l).1 hr)

theorem mem_findAndUpdateFirst_src (p : α → Bool) (f : α → α) (l : List α) :
    ∀ y ∈ (findAndUpdateFirst p f l).2, y ∈ l ∨ ∃ z ∈ l, p z = true ∧ y = f z := by
  induction l with
  | nil => simp [findAndUpdateFirst]
  | cons a as ih =>
    intro y hy
    by_cases hp : p a
    · simp only [findAndUpdateFirst, if_pos hp] at hy
      rcases List.mem_cons.1 hy with rfl | hy
      · exact Or.inr ⟨a, List.mem_cons_self a as, hp, rfl⟩
      · exact Or.inl (List.mem_cons_of_mem _ hy)
    · simp only [findAndUpdateFirst, if_neg hp] at hy
      rcases List.mem_cons.1 hy with rfl | hy
      · exact Or.inl (List.mem_cons_self _ _)
      · rcases ih y hy with h | ⟨z, hz, hpz, hfz⟩
        · exact Or.inl (List.mem_cons_of_mem _ h)
        · exact Or.inr ⟨z, List.mem_cons_of_mem _ hz, hpz, hfz⟩

theorem reorderSectionStep_mem (cid : Nat) (it : Nat × Nat) (l : List Section) :
    ∀ y ∈ (reorderSectionStep cid it l).2, y ∈ l ∨ y.id = it.1 := by
  unfold reorderSectionStep
  split
  · exact fun y hy => Or.inl hy
  split
  · exact fun y hy => Or.inl hy
  rename_i d l' heq
  intro y hy
  have hl' : l' = (findAndUpdateFirst (fun x => x.id == it.1 && x.courseId == cid)
      (fun x => { x with order := it.2 }) l).2 := (congrArg Prod.snd heq).symm
  rw [hl'] at hy
  rcases mem_findAndUpdateFirst_src _ _ _ y hy with h | ⟨z, hz, hpz, hfz⟩
  · exact Or.inl h
  · right
    simp only [Bool.and_eq_true, beq_iff_eq] at hpz
    rw [hfz]
    exact hpz.1

theorem reorderSectionsAll_mem (cid : Nat) (items : List (Nat × Nat))
    (l : List Section) :
    ∀ y ∈ (reorderSectionsAll cid items l).2,
      y ∈ l ∨ ∃ it ∈ items, y.id = it.1 := by
  induction items generalizing l with
  | nil => exact fun y hy => Or.inl hy
  | cons hd rest ih =>
    intro y hy
    simp only [reorderSectionsAll] at hy
    rcases ih _ y hy with h | ⟨it, hit, hid⟩
    · rcases reorderSectionStep_mem cid hd l y h with h' | h'
      · exact Or.inl h'
      · exact Or.inr ⟨hd, List.mem_cons_self _ _, h'⟩
    · exact Or.inr ⟨it, List.mem_cons_of_mem _ hit, hid⟩

theorem reorderSectionStep_applied (cid : Nat) (it : Nat × Nat)
    (l : List Section) (hids : (l.map Section.id).Nodup) (ho : 1 ≤ it.2) :
    ∀ x ∈ (reorderSectionStep cid it l).2, x.id = it.1 → x.courseId = cid →
      x.order = it.2 := by
  unfold reorderSectionStep
  rw [if_neg (by omega)]
  split
  · rename_i heq
    intro x hx hxid hxc
    exfalso
    have hfst : (findAndUpdateFirst (fun x => x.id == it.1 && x.courseId == cid)
        (fun x => { x with order := it.2 }) l).1 = none := congrArg Prod.fst heq
    rw [findAndUpdateFirst_fst, Option.map_eq_none', List.find?_eq_none] at hfst
    exact hfst x hx (by simp [hxid, hxc])
  · rename_i d l' heq
    intro x hx hxid hxc
    have hl' : l' = (findAndUpdateFirst (fun x => x.id == it.1 && x.courseId == cid)
        (fun x => { x with order := it.2 }) l).2 := (congrArg Prod.snd heq).symm
    have hfst : (findAndUpdateFirst (fun x => x.id == it.1 && x.courseId == cid)
        (fun x => { x with order := it.2 }) l).1 = some d := congrArg Prod.fst heq
    rw [findAndUpdateFirst_fst, Option.map_eq_some'] at hfst
    obtain ⟨z, hz, -⟩ := hfst
    obtain ⟨l₁, l₂, hl₁, hsplit, hupd⟩ := findAndUpdateFirst_decomp
      (fun x => x.id == it.1 && x.courseId == cid)
      (fun x => { x with order := it.2 }) l z hz
    have hzp := List.find?_some hz
    simp only [Bool.and_eq_true, beq_iff_eq] at hzp
    rw [hl', hupd] at hx
    rw [hsplit, List.map_append, List.map_cons, List.nodup_middle,
      List.nodup_cons] at hids
    rcases List.mem_append.1 hx with hx1 | hx2
    · exfalso
      refine hids.1 ?_
      rw [← List.map_append]
      exact List.mem_map.2 ⟨x, List.mem_append.2 (Or.inl hx1), by rw [hxid, hzp.1]⟩
    · rcases List.mem_cons.1 hx2 with rfl | hx2
      · rfl
      · exfalso
        refine hids.1 ?_
        rw [← List.map_append]
        exact List.mem_map.2 ⟨x, List.mem_append.2 (Or.inr hx2), by rw [hxid, hzp.1]⟩

theorem reorderSectionsAll_applied (cid : Nat) (items : List (Nat × Nat))
    (l : List Section)
    (hids : (l.map Section.id).Nodup)
    (hitems : (items.map Prod.fst).Nodup)
    (ho : ∀ it ∈ items, 1 ≤ it.2) :
    ∀ it ∈ items, ∀ x ∈ (reorderSectionsAll cid items l).2,
      x.id = it.1 → x.courseId = cid → x.order = it.2 := by
  revert hitems ho
  induction items generalizing l with
  | nil =>
    intro hitems ho it hit
    cases hit
  | cons hd rest ih =>
    intro hitems ho it hit x hx hxid hxc
    simp only [reorderSectionsAll] at hx
    rw [List.map_cons, List.nodup_cons] at hitems
    rcases List.mem_cons.1 hit with rfl | hit
    · rcases reorderSectionsAll_mem cid rest _ x hx with hxstep | ⟨it', hit', hid'⟩
      · exact reorderSectionStep_applied cid it l hids
          (ho it (List.mem_cons_self _ _)) x hxstep hxid hxc
      · exfalso
        exact hitems.1 (List.mem_map.2 ⟨it', hit', by rw [← hid', hxid]⟩)
    · have hids' : (((reorderSectionStep cid hd l).2).map Section.id).Nodup := by
        rw [reorderSectionStep_ids]
        exact hids
      exact ih _ hids' hitems.2
        (fun it' hit' => ho it' (List.mem_cons_of_mem _ hit'))
        it hit x hx hxid hxc

/-- A `{moduleId, order}` pair resolves when some module of the stated
section has that id. -/
def resolvesModule (sid mid : Nat) (l : List Module) : Prop :=
  ∃ m ∈ l, m.id = mid ∧ m.sectionId = sid

instance (sid mid : Nat) (l : List Module) :
    Decidable (resolvesModule sid mid l) := by
  unfold resolvesModule
  infer_instance

theorem resolvesModule_iff (sid mid : Nat) (l : List Module) :
    resolvesModule sid mid l ↔
      (mid, sid) ∈ l.map (fun m => (m.id, m.sectionId)) := by
  unfold resolvesModule
  rw [List.mem_map]
  constructor
  · rintro ⟨m, hm, h1, h2⟩
    exact ⟨m, hm, by rw [h1, h2]⟩
  · rintro ⟨m, hm, hp⟩
    exact ⟨m, hm, congrArg Prod.fst hp, congrArg Prod.snd hp⟩

theorem reorderModuleStep_idSection (sid : Nat) (it : Nat × Nat)
    (l : List Module) :
    ((reorderModuleStep sid it l).2).map (fun m => (m.id, m.sectionId)) =
      l.map (fun m => (m.id, m.sectionId)) := by
  unfold reorderModuleStep
  split
  · rfl
  split
  · rfl
  rename_i d l' heq
  have hl' : l' = (findAndUpdateFirst (fun m => m.id == it.1 && m.sectionId == sid)
      (fun m => { m with order := it.2 }) l).2 := (congrArg Prod.snd heq).symm
  rw [hl']
  exact map_findAndUpdateFirst _ _ _ _ (fun m _ => rfl)

theorem reorderModuleStep_ids (sid : Nat) (it : Nat × Nat) (l : List Module) :
    ((reorderModuleStep sid it l).2).map Module.id = l.map Module.id := by
  unfold reorderModuleStep
  split
  · rfl
  split
  · rfl
  rename_i d l' heq
  have hl' : l' = (findAndUpdateFirst (fun m => m.id == it.1 && m.sectionId == sid)
      (fun m => { m with order := it.2 }) l).2 := (congrArg Prod.snd heq).symm
  rw [hl']
  exact map_findAndUpdateFirst _ _ _ _ (fun m _ => rfl)

theorem resolvesModule_step (sid0 sid mid : Nat) (it : Nat × Nat)
    (l : List Module) :
    resolvesModule sid mid ((reorderModuleStep sid0 it l).2) ↔
      resolvesModule sid mid l := by
  rw [resolvesModule_iff, resolvesModule_iff, reorderModuleStep_idSection]

theorem reorderModuleStep_mark (sid : Nat) (it : Nat × Nat) (l : List Module)
    (ho : 1 ≤ it.2) :
    ((reorderModuleStep sid it l).1.isInvalid = false) ∧
    ((reorderModuleStep sid it l).1.isNotFound = true ↔
      ¬ resolvesModule sid it.1 l) := by
  unfold reorderModuleStep
  rw [if_neg (by omega)]
  split
  · rename_i heq
    have hfst : (findAndUpdateFirst (fun m => m.id == it.1 && m.sectionId == sid)
        (fun m => { m with order := it.2 }) l).1 = none := congrArg Prod.fst heq
    rw [findAndUpdateFirst_fst, Option.map_eq_none', List.find?_eq_none] at hfst
    refine ⟨rfl, ?_⟩
    simp only [ItemRes.isNotFound, true_iff]
    rintro ⟨m, hm, h1, h2⟩
    exact hfst m hm (by simp [h1, h2])
  · rename_i d l' heq
    have hfst : (findAndUpdateFirst (fun m => m.id == it.1 && m.sectionId == sid)
        (fun m => { m with order := it.2 }) l).1 = some d := congrArg Prod.fst heq
    rw [findAndUpdateFirst_fst, Option.map_eq_some'] at hfst
    obtain ⟨z, hz, -⟩ := hfst
    have hzp := List.find?_some hz
    simp only [Bool.and_eq_true, beq_iff_eq] at hzp
    refine ⟨rfl, ?_, ?_⟩
    · intro h
      simp [ItemRes.isNotFound] at h
    · intro hres
      exact absurd ⟨z, List.mem_of_find?_eq_some hz, hzp.1, hzp.2⟩ hres

theorem reorderModulesAll_marks (sid : Nat) (items : List (Nat × Nat))
    (l : List Module) (ho : ∀ it ∈ items, 1 ≤ it.2) :
    ((reorderModulesAll sid items l).1.any ItemRes.isInvalid = false) ∧
    (((reorderModulesAll sid items l).1.any ItemRes.isNotFound = true) ↔
      ∃ it ∈ items, ¬ resolvesModule sid it.1 l) := by
  revert ho
  induction items generalizing l with
  | nil =>
    intro ho
    simp [reorderModulesAll]
  | cons hd rest ih =>
    intro ho
    have hohd : 1 ≤ hd.2 := ho hd (List.mem_cons_self _ _)
    have horest : ∀ it ∈ rest, 1 ≤ it.2 :=
      fun it hit => ho it (List.mem_cons_of_mem _ hit)
    obtain ⟨hstep1, hstep2⟩ := reorderModuleStep_mark sid hd l hohd
    obtain ⟨ih1, ih2⟩ := ih ((reorderModuleStep sid hd l).2) horest
    simp only [reorderModulesAll, List.any_cons, Bool.or_eq_true, Bool.or_eq_false_iff]
    refine ⟨⟨hstep1, ih1⟩, ?_⟩
    constructor
    · rintro (h | h)
      · exact ⟨hd, List.mem_cons_self _ _, hstep2.1 h⟩
      · obtain ⟨it, hit, hres⟩ := ih2.1 h
        exact ⟨it, List.mem_cons_of_mem _ hit,
          fun hr => hres ((resolvesModule_step sid sid it.1 hd l).2 hr)⟩
    · rintro ⟨it, hit, hres⟩
      rcases List.mem_cons.1 hit with rfl | hit
      · exact Or.inl (hstep2.2 hres)
      · refine Or.inr (ih2.2 ⟨it, hit, ?_⟩)
        intro hr
        exact hres ((resolvesModule_step sid sid it.1 hd l).1 hr)

theorem reorderModuleStep_mem (sid : Nat) (it : Nat × Nat) (l : List Module) :
    ∀ y ∈ (reorderModuleStep sid it l).2, y ∈ l ∨ y.id = it.1 := by
  unfold reorderModuleStep
  split
  · exact fun y hy => Or.inl hy
  split
  · exact fun y hy => Or.inl hy
  rename_i d l' heq
  intro y hy
  have hl' : l' = (findAndUpdateFirst (fun m => m.id == it.1 && m.sectionId == sid)
      (fun m => { m with order := it.2 }) l).2 := (congrArg Prod.snd heq).symm
  rw [hl'] at hy
  rcases mem_findAndUpdateFirst_src _ _ _ y hy with h | ⟨z, hz, hpz, hfz⟩
  · exact Or.inl h
  · right
    simp only [Bool.and_eq_true, beq_iff_eq] at hpz
    rw [hfz]
    exact hpz.1

theorem reorderModulesAll_mem (sid : Nat) (items : List (Nat × Nat))
    (l : List Module) :
    ∀ y ∈ (reorderModulesAll sid items l).2,
      y ∈ l ∨ ∃ it ∈ items, y.id = it.1 := by
  induction items generalizing l with
  | nil => exact fun y hy => Or.inl hy
  | cons hd rest ih =>
    intro y hy
    simp only [reorderModulesAll] at hy
    rcases ih _ y hy with h | ⟨it, hit, hid⟩
    · rcases reorderModuleStep_mem sid hd l y h with h' | h'
      · exact Or.inl h'
      · exact Or.inr ⟨hd, List.mem_cons_self _ _, h'⟩
    · exact Or.inr ⟨it, List.mem_cons_of_mem _ hit, hid⟩

theorem reorderModuleStep_applied (sid : Nat) (it : Nat × Nat)
    (l : List Module) (hids : (l.map Module.id).Nodup) (ho : 1 ≤ it.2) :
    ∀ m ∈ (reorderModuleStep sid it l).2, m.id = it.1 → m.sectionId = sid →
      m.order = it.2 := by
  unfold reorderModuleStep
  rw [if_neg (by omega)]
  split
  · rename_i heq
    intro m hm hmid hms
    exfalso
    have hfst : (findAndUpdateFirst (fun m => m.id == it.1 && m.sectionId == sid)
        (fun m => { m with order := it.2 }) l).1 = none := congrArg Prod.fst heq
    rw [findAndUpdateFirst_fst, Option.map_eq_none', List.find?_eq_none] at hfst
    exact hfst m hm (by simp [hmid, hms])
  · rename_i d l' heq
    intro m hm hmid hms
    have hl' : l' = (findAndUpdateFirst (fun m => m.id == it.1 && m.sectionId == sid)
        (fun m => { m with order := it.2 }) l).2 := (congrArg Prod.snd heq).symm
    have hfst : (findAndUpdateFirst (fun m => m.id == it.1 && m.sectionId == sid)
        (fun m => { m with order := it.2 }) l).1 = some d := congrArg Prod.fst heq
    rw [findAndUpdateFirst_fst, Option.map_eq_some'] at hfst
    obtain ⟨z, hz, -⟩ := hfst
    obtain ⟨l₁, l₂, hl₁, hsplit, hupd⟩ := findAndUpdateFirst_decomp
      (fun m => m.id == it.1 && m.sectionId == sid)
      (fun m => { m with order := it.2 }) l z hz
    have hzp := List.find?_some hz
    simp only [Bool.and_eq_true, beq_iff_eq] at hzp
    rw [hl', hupd] at hm
    rw [hsplit, List.map_append, List.map_cons, List.nodup_middle,
      List.nodup_cons] at hids
    rcases List.mem_append.1 hm with hm1 | hm2
    · exfalso
      refine hids.1 ?_
      rw [← List.map_append]
      exact List.mem_map.2 ⟨m, List.mem_append.2 (Or.inl hm1), by rw [hmid, hzp.1]⟩
    · rcases List.mem_cons.1 hm2 with rfl | hm2
      · rfl
      · exfalso
        refine hids.1 ?_
        rw [← List.map_append]
        exact List.mem_map.2 ⟨m, List.mem_append.2 (Or.inr hm2), by rw [hmid, hzp.1]⟩

theorem reorderModulesAll_applied (sid : Nat) (items : List (Nat × Nat))
    (l : List Module)
    (hids : (l.map Module.id).Nodup)
    (hitems : (items.map Prod.fst).Nodup)
    (ho : ∀ it ∈ items, 1 ≤ it.2) :
    ∀ it ∈ items, ∀ m ∈ (reorderModulesAll sid items l).2,
      m.id = it.1 → m.sectionId = sid → m.order = it.2 := by
  revert hitems ho
  induction items generalizing l with
  | nil =>
    intro hitems ho it hit
    cases hit
  | cons hd rest ih =>
    intro hitems ho it hit m hm hmid hms
    simp only [reorderModulesAll] at hm
    rw [List.map_cons, List.nodup_cons] at hitems
    rcases List.mem_cons.1 hit with rfl | hit
    · rcases reorderModulesAll_mem sid rest _ m hm with hmstep | ⟨it', hit', hid'⟩
      · exact reorderModuleStep_applied sid it l hids
          (ho it (List.mem_cons_self _ _)) m hmstep hmid hms
      · exfalso
        exact hitems.1 (List.mem_map.2 ⟨it', hit', by rw [← hid', hmid]⟩)
    · have hids' : (((reorderModuleStep sid hd l).2).map Module.id).Nodup := by
        rw [reorderModuleStep_ids]
        exact hids
      exact ih _ hids' hitems.2
        (fun it' hit' => ho it' (List.mem_cons_of_mem _ hit'))
        it hit m hm hmid hms

/-- C3 (amended): a `reorderSections` (resp. `reorderModules`) call whose
list contains an id that does not resolve to a child of the stated parent
does fail with NotFound (404, "One or more sections/modules not found"),
but the store is NOT left all-or-nothing: every listed id that does
resolve has already received its new order when the failure is reported —
the handler issues all updates first and only scans the results
afterwards, so old and new orders are mixed. -/
theorem reorder_notFound_after_writes (a : AuthUser) (cid sid2 : Nat)
    (items mitems : List (Nat × Nat)) (sec2 : Section) (s : Store)
    (hrole : a.role = .instructor)
    (hcourse : (s.courses.find? (fun c => c.id == cid && c.instructorId == a.id)).isSome)
    (ho : ∀ it ∈ items, 1 ≤ it.2)
    (hids : (s.sections.map Section.id).Nodup)
    (hitems : (items.map Prod.fst).Nodup)
    (hmiss : ∃ it ∈ items, ¬ resolvesSection cid it.1 s.sections)
    (hsec : s.sections.find? (fun x => x.id == sid2) = some sec2)
    (hmcourse : (s.courses.find? (fun c => c.id == sec2.courseId && c.instructorId == a.id)).isSome)
    (hmo : ∀ it ∈ mitems, 1 ≤ it.2)
    (hmids : (s.modules.map Module.id).Nodup)
    (hmitems : (mitems.map Prod.fst).Nodup)
    (hmmiss : ∃ it ∈ mitems, ¬ resolvesModule sid2 it.1 s.modules) :
    ((reorderSections a cid items s).1 = .err 404 "One or more sections not found" ∧
     ∀ it ∈ items, ∀ x ∈ (reorderSections a cid items s).2.sections,
       x.id = it.1 → x.courseId = cid → x.order = it.2) ∧
    ((reorderModules a sid2 mitems s).1 = .err 404 "One or more modules not found" ∧
     ∀ it ∈ mitems, ∀ m ∈ (reorderModules a sid2 mitems s).2.modules,
       m.id = it.1 → m.sectionId = sid2 → m.order = it.2) := by
  obtain ⟨c, hc⟩ := Option.isSome_iff_exists.1 hcourse
  obtain ⟨c2, hc2⟩ := Option.isSome_iff_exists.1 hmcourse
  constructor
  · have hne : items.isEmpty = false := by
      obtain ⟨it, hit, -⟩ := hmiss
      cases items with
      | nil => cases hit
      | cons _ _ => rfl
    obtain ⟨hinv, hnf⟩ := reorderSectionsAll_marks cid items s.sections ho
    have hnf' := hnf.2 hmiss
    have hred : reorderSections a cid items s =
        (.err 404 "One or more sections not found",
         { s with sections := (reorderSectionsAll cid items s.sections).2 }) := by
      simp [reorderSections, hrole, hc, hne, hinv, hnf']
    rw [hred]
    exact ⟨rfl, fun it hit x hx hxid hxc =>
      reorderSectionsAll_applied cid items s.sections hids hitems ho
        it hit x hx hxid hxc⟩
  · have hne : mitems.isEmpty = false := by
      obtain ⟨it, hit, -⟩ := hmmiss
      cases mitems with
      | nil => cases hit
      | cons _ _ => rfl
    obtain ⟨hinv, hnf⟩ := reorderModulesAll_marks sid2 mitems s.modules hmo
    have hnf' := hnf.2 hmmiss
    have hred : reorderModules a sid2 mitems s =
        (.err 404 "One or more modules not found",
         { s with modules := (reorderModulesAll sid2 mitems s.modules).2 }) := by
      simp [reorderModules, hrole, hsec, hc2, hne, hinv, hnf']
    rw [hred]
    exact ⟨rfl, fun it hit m hm hmid hms =>
      reorderModulesAll_applied sid2 mitems s.modules hmids hmitems hmo
        it hit m hm hmid hms⟩

/-- C3 witness: on the concrete store, reordering sections `[(1,5),(9,2)]`
of course 0 (id 9 does not exist) and modules `[(3,4),(9,9)]` of section 1
both answer 404 while the resolving ids 1 and 3 keep their new orders. -/
theorem reorder_notFound_after_writes_witness :
    ((reorderSections instrA 0 [(1, 5), (9, 2)] storeA).1
        = .err 404 "One or more sections not found" ∧
     ∀ it ∈ [(1, 5), (9, 2)],
       ∀ x ∈ (reorderSections instrA 0 [(1, 5), (9, 2)] storeA).2.sections,
         x.id = it.1 → x.courseId = 0 → x.order = it.2) ∧
    ((reorderModules instrA 1 [(3, 4), (9, 9)] storeA).1
        = .err 404 "One or more modules not found" ∧
     ∀ it ∈ [(3, 4), (9, 9)],
       ∀ m ∈ (reorderModules instrA 1 [(3, 4), (9, 9)] storeA).2.modules,
         m.id = it.1 → m.sectionId = 1 → m.order = it.2) :=
  reorder_notFound_after_writes instrA 0 1 [(1, 5), (9, 2)] [(3, 4), (9, 9)]
    secA storeA (by decide) (by decide) (by decide) (by decide) (by decide)
    (by decide) (by decide) (by decide) (by decide) (by decide) (by decide)
    (by decide)

/-- C3 counterexample: the claim requires all-or-nothing; on the concrete
store the reorder call `[(1,5),(9,2)]` fails with 404 because id 9 does
not exist, yet section 1 (which started at order 1) has already been
written with its new order 5 while section 2 keeps its old order — a
mixture of old and new orders. -/
theorem reorder_notFound_mixed_orders_counterexample :
    secA.order = 1 ∧
    (reorderSections instrA 0 [(1, 5), (9, 2)] storeA).1
      = .err 404 "One or more sections not found" ∧
    (reorderSections instrA 0 [(1, 5), (9, 2)] storeA).2.sections
      = [{ secA with order := 5 }, secB] := by
  refine ⟨by decide, by decide, by decide⟩

end ULearn
